import Mathlib

/-!
Verification of the BasicVAE modules of pytorch-lightning-bolts.

The repository has two near-identical source files,
`pl_bolts/models/autoencoders/basic_vae/basic_vae_module.py` and
`pl_bolts/models/vaes/basic/template.py`, each defining a `BasicVAE`
Lightning module.  The mathematical core (prior/posterior construction,
the ELBO loss, the shared step, epoch aggregation, hyper-parameter
checking) is embedded here shallowly:

* a batched tensor of shape `[batch, d]` is a `List (List ℝ)` — the outer
  list is the batch dimension, the inner list the feature/latent
  dimension; images are modelled in their flattened `[batch, pixels]`
  form so that `x.view(x.size(0), -1)` is the identity;
* `torch.distributions.normal.Normal(loc, scale)` over such a tensor is a
  pair of loc/scale tensors, with the elementwise log-density exactly as
  in torch (`-((z - loc)^2)/(2 var) - log scale - log (sqrt (2 pi))`);
* randomness is made explicit: `rsample` receives the standard-normal
  noise tensor `eps` as an argument and computes `loc + eps * scale`
  (the reparameterization used by torch's `Normal.rsample`);
* `F.binary_cross_entropy(p, t, reduction='none')` is the elementwise
  map of `-(t * log p + (1 - t) * log (1 - p))`; torch additionally
  clamps each logarithm at `-100`, which coincides with the mathematical
  form whenever `p` lies strictly between 0 and 1;
* fallible torch operations (`torch.stack` of an empty list, attribute
  access on an object lacking the attribute) return `Option`.

The encoder and decoder networks are external collaborators and appear
as opaque function parameters, exactly as the spec treats them.
-/

noncomputable section

/-- Batched 2-d tensor: outer list = batch dimension, inner list = feature
or latent dimension. -/
abbrev Tensor2 : Type := List (List ℝ)

/-- Elementwise map over a batched tensor (e.g. `torch.exp`, `zeros_like`). -/
def tmap (f : ℝ → ℝ) (t : Tensor2) : Tensor2 :=
  t.map (fun row => row.map f)

/-- Elementwise binary operation over two batched tensors of matching shape
(e.g. tensor `+`, `-`, `*`, or elementwise binary cross-entropy). -/
def tmap2 (f : ℝ → ℝ → ℝ) (a b : Tensor2) : Tensor2 :=
  List.zipWith (fun ra rb => List.zipWith f ra rb) a b

/-- Three-list pointwise zip, used for the elementwise ternary operations
below. -/
def zipWith3 (f : α → β → γ → δ) : List α → List β → List γ → List δ
  | a :: as, b :: bs, c :: cs => f a b c :: zipWith3 f as bs cs
  | _, _, _ => []

/-- Elementwise ternary operation over three batched tensors of matching
shape. -/
def tmap3 (f : ℝ → ℝ → ℝ → ℝ) (a b c : Tensor2) : Tensor2 :=
  zipWith3 (fun ra rb rc => zipWith3 f ra rb rc) a b c

/-- Mean of a 1-d tensor, as computed by `Tensor.mean()`: sum divided by
length (division by zero yields Lean's junk value 0; torch would produce
NaN there, which claim C8 handles through `stack`). -/
def listMean (l : List ℝ) : ℝ :=
  l.sum / l.length

/-- Elementwise binary cross-entropy of `F.binary_cross_entropy` with
`reduction='none'`: prediction `p`, target `t`. -/
def bce (p t : ℝ) : ℝ :=
  -(t * Real.log p + (1 - t) * Real.log (1 - p))

/-- Log-density of a univariate Gaussian, exactly the formula of
`torch.distributions.normal.Normal.log_prob`. -/
def normalLogProb (loc scale z : ℝ) : ℝ :=
  -((z - loc) ^ 2 / (2 * scale ^ 2)) - Real.log scale - Real.log (Real.sqrt (2 * Real.pi))

/-- A batched diagonal Gaussian `torch.distributions.normal.Normal(loc, scale)`:
one independent univariate Gaussian per tensor element. -/
structure NormalDist where
  loc : Tensor2
  scale : Tensor2

/-- Reparameterized sample `Normal.rsample()`: `loc + eps * scale` with the
standard-normal noise tensor `eps` passed explicitly. -/
def NormalDist.rsample (d : NormalDist) (eps : Tensor2) : Tensor2 :=
  tmap2 (fun a b => a + b) d.loc (tmap2 (fun a b => a * b) eps d.scale)

/-- Elementwise `Normal.log_prob(z)`. -/
def NormalDist.log_prob (d : NormalDist) (z : Tensor2) : Tensor2 :=
  tmap3 normalLogProb d.loc d.scale z

/-- Model of `torch.stack` on a list of scalar tensors: it raises a
RuntimeError on an empty list, here `none`. -/
def stack (l : List ℝ) : Option (List ℝ) :=
  match l with
  | [] => none
  | _ => some l

/-- Per-sample reconstruction loss as formed inside `elbo_loss`:
`F.binary_cross_entropy(pxz, x, reduction='none').sum(dim=-1)`, one scalar
per batch element. -/
def reconPerSample (pxz x : Tensor2) : List ℝ :=
  (tmap2 bce pxz x).map List.sum

/-- Per-sample KL term as formed inside `elbo_loss`:
`(Q.log_prob(z) - P.log_prob(z)).sum(dim=1)`, one scalar per batch
element. -/
def klPerSample (P Q : NormalDist) (z : Tensor2) : List ℝ :=
  (tmap2 (fun a b => a - b) (Q.log_prob z) (P.log_prob z)).map List.sum

/-- A Python hparams object: each recognised attribute is either present
(`some`) or absent (`none`); `hparams=None` is the all-`none` record. -/
structure HParams where
  hidden_dim : Option Nat
  latent_dim : Option Nat
  input_width : Option Nat
  input_height : Option Nat
  batch_size : Option Nat

/-- The five module fields set by `BasicVAE.__check_hparams`. -/
structure CheckedHParams where
  hidden_dim : Nat
  latent_dim : Nat
  input_width : Nat
  input_height : Nat
  batch_size : Nat
deriving DecidableEq

namespace basic_vae_module

/-- BasicVAE.__check_hparams of basic_vae_module.py.  Each line is
`self.f = hparams.g if hasattr(hparams, 'f') else default`; note that the
`batch_size` line reads `hparams.input_height` when the `batch_size`
attribute is present, so it returns `none` (AttributeError) when
`batch_size` is present but `input_height` is absent. -/
def check_hparams (h : HParams) : Option CheckedHParams :=
  (if h.batch_size.isSome then h.input_height else some 32).map (fun bs =>
    ⟨h.hidden_dim.getD 128, h.latent_dim.getD 32, h.input_width.getD 28,
      h.input_height.getD 28, bs⟩)

/-- BasicVAE.get_prior of basic_vae_module.py:
`Normal(loc=torch.zeros_like(z_mu), scale=torch.ones_like(z_std))`. -/
def get_prior (z_mu z_std : Tensor2) : NormalDist :=
  ⟨tmap (fun _ => 0) z_mu, tmap (fun _ => 1) z_std⟩

/-- BasicVAE.get_approx_posterior of basic_vae_module.py:
`Normal(loc=z_mu, scale=z_std)`. -/
def get_approx_posterior (z_mu z_std : Tensor2) : NormalDist :=
  ⟨z_mu, z_std⟩

/-- BasicVAE.elbo_loss of basic_vae_module.py.  `forward` stands for
`self(z)` (the module's forward, which delegates to the decoder) and
`eps` is the noise consumed by `Q.rsample()`. -/
def elbo_loss (forward : Tensor2 → Tensor2) (x : Tensor2) (P Q : NormalDist)
    (eps : Tensor2) : ℝ × ℝ × ℝ × Tensor2 :=
  let z := Q.rsample eps
  let pxz := forward z
  let recon_loss0 := tmap2 bce pxz x
  let recon_loss := recon_loss0.map List.sum
  let log_qz := Q.log_prob z
  let log_pz := P.log_prob z
  let kl_div := (tmap2 (fun a b => a - b) log_qz log_pz).map List.sum
  let loss := List.zipWith (fun a b => a + b) recon_loss kl_div
  (listMean loss, listMean recon_loss, listMean kl_div, pxz)

/-- BasicVAE._run_step of basic_vae_module.py.  The encoder and decoder
submodules are the function parameters; the batch is `(images, labels)`
with the images already in flattened `[batch, pixels]` form, so
`x.view(x.size(0), -1)` is the identity. -/
def run_step {α : Type} (encoder : Tensor2 → Tensor2 × Tensor2)
    (decoder : Tensor2 → Tensor2) (batch : Tensor2 × α) (eps : Tensor2) :
    ℝ × ℝ × ℝ × Tensor2 :=
  let x := batch.1
  let enc := encoder x
  let z_mu := enc.1
  let z_log_var := enc.2
  let z_std := tmap Real.exp (tmap (fun v => v / 2) z_log_var)
  let P := get_prior z_mu z_std
  let Q := get_approx_posterior z_mu z_std
  elbo_loss decoder x P Q eps

/-- Output dictionary of BasicVAE.validation_step. -/
structure ValStepOutput where
  val_loss : ℝ
  val_recon_loss : ℝ
  val_kl_div : ℝ
  pxz : Tensor2

/-- Result of BasicVAE.validation_epoch_end: the `avg_val_loss` entry and
the three tensorboard log entries. -/
structure ValEpochResult where
  avg_val_loss : ℝ
  val_elbo_loss : ℝ
  val_recon_loss : ℝ
  val_kl_loss : ℝ

/-- BasicVAE.validation_epoch_end of basic_vae_module.py:
`torch.stack([...]).mean()` for each of the three metrics; `stack` fails
on an empty output list. -/
def validation_epoch_end (outputs : List ValStepOutput) : Option ValEpochResult :=
  match stack (outputs.map (fun o => o.val_loss)),
      stack (outputs.map (fun o => o.val_recon_loss)),
      stack (outputs.map (fun o => o.val_kl_div)) with
  | some ls, some rs, some ks =>
      some ⟨listMean ls, listMean ls, listMean rs, listMean ks⟩
  | _, _, _ => none

/-- Output dictionary of BasicVAE.test_step. -/
structure TestStepOutput where
  test_loss : ℝ
  test_recon_loss : ℝ
  test_kl_div : ℝ
  pxz : Tensor2

/-- Result of BasicVAE.test_epoch_end: the `avg_test_loss` entry and the
three tensorboard log entries. -/
structure TestEpochResult where
  avg_test_loss : ℝ
  test_elbo_loss : ℝ
  test_recon_loss : ℝ
  test_kl_loss : ℝ

/-- BasicVAE.test_epoch_end of basic_vae_module.py. -/
def test_epoch_end (outputs : List TestStepOutput) : Option TestEpochResult :=
  match stack (outputs.map (fun o => o.test_loss)),
      stack (outputs.map (fun o => o.test_recon_loss)),
      stack (outputs.map (fun o => o.test_kl_div)) with
  | some ls, some rs, some ks =>
      some ⟨listMean ls, listMean ls, listMean rs, listMean ks⟩
  | _, _, _ => none

end basic_vae_module

namespace template

/-- BasicVAE.get_prior of template.py (textually identical to the
basic_vae_module version). -/
def get_prior (z_mu z_std : Tensor2) : NormalDist :=
  ⟨tmap (fun _ => 0) z_mu, tmap (fun _ => 1) z_std⟩

/-- BasicVAE.get_approx_posterior of template.py. -/
def get_approx_posterior (z_mu z_std : Tensor2) : NormalDist :=
  ⟨z_mu, z_std⟩

/-- BasicVAE.elbo_loss of template.py. -/
def elbo_loss (forward : Tensor2 → Tensor2) (x : Tensor2) (P Q : NormalDist)
    (eps : Tensor2) : ℝ × ℝ × ℝ × Tensor2 :=
  let z := Q.rsample eps
  let pxz := forward z
  let recon_loss0 := tmap2 bce pxz x
  let recon_loss := recon_loss0.map List.sum
  let log_qz := Q.log_prob z
  let log_pz := P.log_prob z
  let kl_div := (tmap2 (fun a b => a - b) log_qz log_pz).map List.sum
  let loss := List.zipWith (fun a b => a + b) recon_loss kl_div
  (listMean loss, listMean recon_loss, listMean kl_div, pxz)

/-- BasicVAE._run_step of template.py. -/
def run_step {α : Type} (encoder : Tensor2 → Tensor2 × Tensor2)
    (decoder : Tensor2 → Tensor2) (batch : Tensor2 × α) (eps : Tensor2) :
    ℝ × ℝ × ℝ × Tensor2 :=
  let x := batch.1
  let enc := encoder x
  let z_mu := enc.1
  let z_log_var := enc.2
  let z_std := tmap Real.exp (tmap (fun v => v / 2) z_log_var)
  let P := get_prior z_mu z_std
  let Q := get_approx_posterior z_mu z_std
  elbo_loss decoder x P Q eps

end template

/-! General lemmas about the tensor operations. -/

/-- Every element of a pointwise zip comes from a pair of elements of the
two input lists. -/
theorem mem_zipWith {α β γ : Type} {f : α → β → γ} {c : γ} :
    ∀ {l1 : List α} {l2 : List β}, c ∈ List.zipWith f l1 l2 →
      ∃ a ∈ l1, ∃ b ∈ l2, c = f a b := by
  intro l1
  induction l1 with
  | nil => intro l2 h; simp at h
  | cons a as ih =>
      intro l2 h
      cases l2 with
      | nil => simp at h
      | cons b bs =>
          simp only [List.zipWith_cons_cons, List.mem_cons] at h
          rcases h with h | h
          · exact ⟨a, by simp, b, by simp, h⟩
          · obtain ⟨a0, ha0, b0, hb0, rfl⟩ := ih h
            exact ⟨a0, by simp [ha0], b0, by simp [hb0], rfl⟩

/-- Sum of a pointwise list addition, when the lengths agree. -/
theorem sum_zipWith_add :
    ∀ (a b : List ℝ), a.length = b.length →
      (List.zipWith (fun x y => x + y) a b).sum = a.sum + b.sum := by
  intro a
  induction a with
  | nil =>
      intro b h
      cases b with
      | nil => simp
      | cons x xs => simp at h
  | cons x xs ih =>
      intro b h
      cases b with
      | nil => simp at h
      | cons y ys =>
          simp only [List.length_cons, Nat.succ.injEq] at h
          simp only [List.zipWith_cons_cons, List.sum_cons, ih ys h]
          ring

/-- Mean of a pointwise list addition distributes over the two summands,
when the lengths agree. -/
theorem listMean_zipWith_add (a b : List ℝ) (h : a.length = b.length) :
    listMean (List.zipWith (fun x y => x + y) a b) = listMean a + listMean b := by
  simp only [listMean, sum_zipWith_add a b h, List.length_zipWith, h, Nat.min_self]
  rw [add_div]

/-- Mean of a constant list is that constant (for a nonempty list). -/
theorem listMean_replicate {n : Nat} (hn : n ≠ 0) (c : ℝ) :
    listMean (List.replicate n c) = c := by
  simp only [listMean, List.sum_replicate, List.length_replicate, nsmul_eq_mul]
  rw [mul_comm, mul_div_assoc, div_self (by exact_mod_cast hn), mul_one]

/-- Zipping a constant list of matching length against `l` is a map over
`l`. -/
theorem zipWith_replicate_left {α β γ : Type} (f : α → β → γ) (a : α) :
    ∀ (l : List β), List.zipWith f (List.replicate l.length a) l = l.map (f a) := by
  intro l
  induction l with
  | nil => simp
  | cons x xs ih => simp [List.replicate_succ, ih]

/-- A map every value of which is the constant `c` is a `replicate`. -/
theorem map_eq_replicate_of_forall {α : Type} {g : α → ℝ} {c : ℝ} :
    ∀ {l : List α}, (∀ r ∈ l, g r = c) → l.map g = List.replicate l.length c := by
  intro l
  induction l with
  | nil => simp
  | cons x xs ih =>
      intro h
      simp only [List.map_cons, List.length_cons, List.replicate_succ]
      rw [h x (by simp), ih (fun r hr => h r (by simp [hr]))]

/-- Length of a three-way zip is the minimum of the three lengths. -/
theorem length_zipWith3 {α β γ δ : Type} (f : α → β → γ → δ) :
    ∀ (a : List α) (b : List β) (c : List γ),
      (zipWith3 f a b c).length = min a.length (min b.length c.length) := by
  intro a
  induction a with
  | nil => intro b c; simp [zipWith3]
  | cons x xs ih =>
      intro b c
      cases b with
      | nil => simp [zipWith3]
      | cons y ys =>
          cases c with
          | nil => simp [zipWith3]
          | cons z zs =>
              simp only [zipWith3, List.length_cons, ih]
              omega

/-- Zipping a list with itself is a map along the diagonal. -/
theorem zipWith_self {α β : Type} (f : α → α → β) :
    ∀ (l : List α), List.zipWith f l l = l.map (fun a => f a a) := by
  intro l
  induction l with
  | nil => simp
  | cons x xs ih => simp [ih]

/-- The Monte-Carlo KL term vanishes identically when the posterior and the
prior are the same distribution: `log q(z) - log p(z) = 0` pointwise. -/
theorem klPerSample_self (d : NormalDist) (z : Tensor2) :
    ∀ k ∈ klPerSample d d z, k = 0 := by
  intro k hk
  simp only [klPerSample, tmap2, zipWith_self, List.mem_map] at hk
  obtain ⟨row, ⟨ra, hra, rfl⟩, rfl⟩ := hk
  refine List.sum_eq_zero (fun v hv => ?_)
  simp only [List.mem_map] at hv
  obtain ⟨w, hw, hwv⟩ := hv
  rw [← hwv]
  exact sub_self w

/-- Binary cross-entropy against the constant prediction 1/2 is
`-log (1/2)` whatever the target, since the two coefficients sum to 1. -/
theorem bce_half (t : ℝ) : bce (1 / 2) t = -Real.log (1 / 2) := by
  have h : (1 : ℝ) - 1 / 2 = 1 / 2 := by norm_num
  rw [bce, h]
  ring

/-- Binary cross-entropy is nonnegative when prediction and target both lie
in the unit interval (both logarithms are nonpositive and both coefficients
nonnegative). -/
theorem bce_nonneg {p t : ℝ} (hp0 : 0 ≤ p) (hp1 : p ≤ 1) (ht0 : 0 ≤ t)
    (ht1 : t ≤ 1) : 0 ≤ bce p t := by
  have h1 : Real.log p ≤ 0 := Real.log_nonpos hp0 hp1
  have h2 : Real.log (1 - p) ≤ 0 := Real.log_nonpos (by linarith) (by linarith)
  have h3 : t * Real.log p ≤ 0 := by nlinarith
  have h4 : (1 - t) * Real.log (1 - p) ≤ 0 := by nlinarith
  rw [bce]
  linarith

/-- Per-sample reconstruction loss of a row against the constant
prediction 1/2: the feature dimension times `-log (1/2)`. -/
theorem sum_bce_half (row : List ℝ) :
    (List.zipWith bce (List.replicate row.length (1 / 2)) row).sum =
      row.length * (-Real.log (1 / 2)) := by
  rw [zipWith_replicate_left]
  rw [map_eq_replicate_of_forall (fun r _ => bce_half r)]
  simp [List.sum_replicate, nsmul_eq_mul]

/-- Zipping two constant lists of the same length. -/
theorem zipWith_replicate_replicate {α β γ : Type} (f : α → β → γ) (n : ℕ)
    (a : α) (b : β) :
    List.zipWith f (List.replicate n a) (List.replicate n b) =
      List.replicate n (f a b) := by
  induction n with
  | zero => simp
  | succ k ih => simp [List.replicate_succ, ih]

/-- Per-sample reconstruction losses against the constant reconstruction
1/2 on an `n × m` input: every sample contributes `m * (-log (1/2))`. -/
theorem reconPerSample_const_half (n m : ℕ) (x : Tensor2) (hxlen : x.length = n)
    (hrows : ∀ row ∈ x, row.length = m) :
    reconPerSample (List.replicate n (List.replicate m (1 / 2 : ℝ))) x =
      List.replicate n (m * (-Real.log (1 / 2))) := by
  subst hxlen
  unfold reconPerSample tmap2
  rw [zipWith_replicate_left, List.map_map]
  refine map_eq_replicate_of_forall ?_
  intro r hr
  have hm := hrows r hr
  subst hm
  simpa using sum_bce_half r

/-- The Monte-Carlo KL list is a list of zeros when the posterior equals
the prior. -/
theorem klPerSample_self_replicate (d : NormalDist) (z : Tensor2) {n : ℕ}
    (hlen : (klPerSample d d z).length = n) :
    klPerSample d d z = List.replicate n 0 :=
  List.eq_replicate_iff.mpr ⟨hlen, klPerSample_self d z⟩

/-- Running `elbo_loss` with a constant-1/2 decoder when the posterior
coincides with the prior: reconstruction contributes `m * (-log (1/2))`
per sample, the KL term vanishes, and the batch means collapse
accordingly. -/
theorem elbo_loss_const_half_self_prior (x eps : Tensor2) (d : NormalDist)
    (n m : ℕ) (hn : n ≠ 0) (hx : x.length = n)
    (hrows : ∀ row ∈ x, row.length = m)
    (hkl : (klPerSample d d (d.rsample eps)).length = n) :
    basic_vae_module.elbo_loss
        (fun _ => List.replicate n (List.replicate m (1 / 2 : ℝ))) x d d eps =
      (m * (-Real.log (1 / 2)), m * (-Real.log (1 / 2)), 0,
        List.replicate n (List.replicate m (1 / 2 : ℝ))) := by
  have hchar : basic_vae_module.elbo_loss
      (fun _ => List.replicate n (List.replicate m (1 / 2 : ℝ))) x d d eps =
      (listMean (List.zipWith (fun a b => a + b)
          (reconPerSample (List.replicate n (List.replicate m (1 / 2 : ℝ))) x)
          (klPerSample d d (d.rsample eps))),
        listMean (reconPerSample (List.replicate n (List.replicate m (1 / 2 : ℝ))) x),
        listMean (klPerSample d d (d.rsample eps)),
        List.replicate n (List.replicate m (1 / 2 : ℝ))) := rfl
  rw [hchar, reconPerSample_const_half n m x hx hrows,
    klPerSample_self_replicate d _ hkl, zipWith_replicate_replicate,
    listMean_replicate hn, listMean_replicate hn, listMean_replicate hn]
  norm_num


/-! Claim theorems. -/

/-- C4 (code bug): the claim says the module's `batch_size` equals
`hparams.batch_size` when that attribute is present.  The code instead
reads `hparams.input_height` on that branch.  With `batch_size = 7` and
`input_height = 9` present, `__check_hparams` sets `batch_size` to 9, not
7 (first conjunct); with `batch_size` present but `input_height` absent it
raises an AttributeError (second conjunct).  The absent-attribute defaults
128/32/28/28/32 of the claim do hold (first and third conjuncts). -/
theorem c4_check_hparams_reads_input_height :
    basic_vae_module.check_hparams ⟨none, none, none, some 9, some 7⟩ =
      some ⟨128, 32, 28, 9, 9⟩ ∧
    basic_vae_module.check_hparams ⟨none, none, none, none, some 7⟩ = none ∧
    basic_vae_module.check_hparams ⟨none, none, none, none, none⟩ =
      some ⟨128, 32, 28, 28, 32⟩ ∧
    (9 : Nat) ≠ 7 := by
  refine ⟨rfl, rfl, rfl, by decide⟩

/-- C5: the standard deviation handed to `get_approx_posterior` inside
`_run_step` is `torch.exp(z_log_var / 2)` applied elementwise to the
encoder's log-variance output, and every element of the resulting scale
tensor is strictly positive, whatever the encoder produced. -/
theorem c5_posterior_std_positive (z_mu z_log_var : Tensor2) :
    ∀ row ∈ (basic_vae_module.get_approx_posterior z_mu
        (tmap Real.exp (tmap (fun v => v / 2) z_log_var))).scale,
      ∀ s ∈ row, 0 < s := by
  intro row hrow s hs
  simp only [basic_vae_module.get_approx_posterior, tmap, List.map_map,
    List.mem_map] at hrow
  obtain ⟨r0, hr0, rfl⟩ := hrow
  simp only [Function.comp, List.map_map, List.mem_map] at hs
  obtain ⟨v, hv, rfl⟩ := hs
  exact Real.exp_pos _

/-- Witness for C5 at the single-element log-variance tensor `[[0]]`. -/
theorem c5_posterior_std_positive_witness : (0 : ℝ) < Real.exp ((0 : ℝ) / 2) :=
  c5_posterior_std_positive [[0]] [[0]] [Real.exp ((0 : ℝ) / 2)]
    (by simp [basic_vae_module.get_approx_posterior, tmap])
    (Real.exp ((0 : ℝ) / 2)) (by simp)

/-- C9: `_run_step` is deterministic: two runs on the same batch with the
same deterministic encoder and decoder and the same standard-normal noise
(as produced by an identical random seed) return identical output tuples.
Inputs are never mutated: the embedding of the step is a pure function of
batch and noise. -/
theorem c9_run_step_deterministic {α : Type}
    (encoder : Tensor2 → Tensor2 × Tensor2) (decoder : Tensor2 → Tensor2)
    (b1 b2 : Tensor2 × α) (e1 e2 : Tensor2) (hb : b1 = b2) (he : e1 = e2) :
    basic_vae_module.run_step encoder decoder b1 e1 =
      basic_vae_module.run_step encoder decoder b2 e2 := by
  rw [hb, he]

/-- Witness for C9 on a concrete one-sample batch with identity-like
encoder and decoder stubs. -/
theorem c9_run_step_deterministic_witness :
    ([[(0 : ℝ)]], ()) = (([[(0 : ℝ)]], ()) : Tensor2 × Unit) ∧
    ([[(0 : ℝ)]] : Tensor2) = [[(0 : ℝ)]] ∧
    basic_vae_module.run_step (fun x => (x, x)) (fun z => z)
        ([[(0 : ℝ)]], ()) [[(0 : ℝ)]] =
      basic_vae_module.run_step (fun x => (x, x)) (fun z => z)
        ([[(0 : ℝ)]], ()) [[(0 : ℝ)]] :=
  ⟨rfl, rfl,
    c9_run_step_deterministic (fun x => (x, x)) (fun z => z)
      ([[(0 : ℝ)]], ()) ([[(0 : ℝ)]], ()) [[(0 : ℝ)]] [[(0 : ℝ)]] rfl rfl⟩

/-- C10: the two BasicVAE implementations (basic_vae_module.py and
template.py) are extensionally equivalent on the core step logic:
`get_prior`, `get_approx_posterior`, `elbo_loss` and `_run_step` agree on
every input when given the same encoder, decoder, noise sample and
batch. -/
theorem c10_two_files_equivalent :
    (∀ z_mu z_std : Tensor2,
      basic_vae_module.get_prior z_mu z_std = template.get_prior z_mu z_std) ∧
    (∀ z_mu z_std : Tensor2,
      basic_vae_module.get_approx_posterior z_mu z_std =
        template.get_approx_posterior z_mu z_std) ∧
    (∀ (forward : Tensor2 → Tensor2) (x : Tensor2) (P Q : NormalDist)
        (eps : Tensor2),
      basic_vae_module.elbo_loss forward x P Q eps =
        template.elbo_loss forward x P Q eps) ∧
    (∀ (α : Type) (encoder : Tensor2 → Tensor2 × Tensor2)
        (decoder : Tensor2 → Tensor2) (batch : Tensor2 × α) (eps : Tensor2),
      basic_vae_module.run_step encoder decoder batch eps =
        template.run_step encoder decoder batch eps) :=
  ⟨fun _ _ => rfl, fun _ _ => rfl, fun _ _ _ _ _ => rfl,
    fun _ _ _ _ _ => rfl⟩

/-- Mean of a nonempty constant list written in cons form. -/
theorem listMean_cons_replicate (m : ℕ) (c : ℝ) :
    listMean (c :: List.replicate m c) = c := by
  rw [← List.replicate_succ]
  exact listMean_replicate (Nat.succ_ne_zero m) c

/-- C7: aggregating an epoch made of `n ≥ 1` identical per-batch records
returns exactly the record's values: `validation_epoch_end` and
`test_epoch_end` of `n` copies of one record report its loss, its
reconstruction loss and its KL value unchanged. -/
theorem c7_epoch_end_homogeneous (n : ℕ) (hn : 1 ≤ n)
    (r : basic_vae_module.ValStepOutput) (t : basic_vae_module.TestStepOutput) :
    basic_vae_module.validation_epoch_end (List.replicate n r) =
      some ⟨r.val_loss, r.val_loss, r.val_recon_loss, r.val_kl_div⟩ ∧
    basic_vae_module.test_epoch_end (List.replicate n t) =
      some ⟨t.test_loss, t.test_loss, t.test_recon_loss, t.test_kl_div⟩ := by
  obtain ⟨m, rfl⟩ : ∃ m, n = m + 1 := ⟨n - 1, by omega⟩
  constructor
  · simp [basic_vae_module.validation_epoch_end, List.replicate_succ, stack,
      listMean_cons_replicate]
  · simp [basic_vae_module.test_epoch_end, List.replicate_succ, stack,
      listMean_cons_replicate]

/-- Witness for C7 with three copies of one concrete record. -/
theorem c7_epoch_end_homogeneous_witness :
    1 ≤ 3 ∧
    basic_vae_module.validation_epoch_end
        (List.replicate 3 (⟨5, 4, 1, []⟩ : basic_vae_module.ValStepOutput)) =
      some ⟨5, 5, 4, 1⟩ ∧
    basic_vae_module.test_epoch_end
        (List.replicate 3 (⟨6, 4, 2, []⟩ : basic_vae_module.TestStepOutput)) =
      some ⟨6, 6, 4, 2⟩ :=
  ⟨by omega,
    (c7_epoch_end_homogeneous 3 (by omega) ⟨5, 4, 1, []⟩ ⟨6, 4, 2, []⟩).1,
    (c7_epoch_end_homogeneous 3 (by omega) ⟨5, 4, 1, []⟩ ⟨6, 4, 2, []⟩).2⟩

/-- C8: epoch aggregation fails on an empty record list (torch.stack of an
empty list raises, modelled by `none`), and on every non-empty list it
returns the arithmetic means of the three metrics across all batches. -/
theorem c8_epoch_end_empty_fails_nonempty_means :
    basic_vae_module.validation_epoch_end [] = none ∧
    basic_vae_module.test_epoch_end [] = none ∧
    (∀ outs : List basic_vae_module.ValStepOutput, outs ≠ [] →
      basic_vae_module.validation_epoch_end outs =
        some ⟨listMean (outs.map (fun o => o.val_loss)),
              listMean (outs.map (fun o => o.val_loss)),
              listMean (outs.map (fun o => o.val_recon_loss)),
              listMean (outs.map (fun o => o.val_kl_div))⟩) ∧
    (∀ outs : List basic_vae_module.TestStepOutput, outs ≠ [] →
      basic_vae_module.test_epoch_end outs =
        some ⟨listMean (outs.map (fun o => o.test_loss)),
              listMean (outs.map (fun o => o.test_loss)),
              listMean (outs.map (fun o => o.test_recon_loss)),
              listMean (outs.map (fun o => o.test_kl_div))⟩) := by
  refine ⟨rfl, rfl, ?_, ?_⟩
  · intro outs houts
    cases outs with
    | nil => exact absurd rfl houts
    | cons o os => simp [basic_vae_module.validation_epoch_end, stack]
  · intro outs houts
    cases outs with
    | nil => exact absurd rfl houts
    | cons o os => simp [basic_vae_module.test_epoch_end, stack]

/-- Witness for C8 on a concrete one-record epoch. -/
theorem c8_epoch_end_witness :
    ([(⟨5, 4, 1, []⟩ : basic_vae_module.ValStepOutput)] ≠ []) ∧
    basic_vae_module.validation_epoch_end
        [(⟨5, 4, 1, []⟩ : basic_vae_module.ValStepOutput)] =
      some ⟨listMean [5], listMean [5], listMean [4], listMean [1]⟩ :=
  ⟨by simp,
    (c8_epoch_end_empty_fails_nonempty_means.2.2.1 [⟨5, 4, 1, []⟩] (by simp))⟩

/-- C1: per batch, `elbo_loss` returns the batch means of the per-sample
reconstruction losses (elementwise binary cross-entropy summed over the
feature dimension), of the per-sample KL terms, and of their per-sample
sums, together with the reconstruction; in particular, when the two
per-sample lists have the same batch length, the returned loss equals the
sum of the returned reconstruction loss and KL divergence. -/
theorem c1_elbo_decomposition (forward : Tensor2 → Tensor2) (x : Tensor2)
    (P Q : NormalDist) (eps : Tensor2)
    (h : (reconPerSample (forward (Q.rsample eps)) x).length =
      (klPerSample P Q (Q.rsample eps)).length) :
    basic_vae_module.elbo_loss forward x P Q eps =
      (listMean (List.zipWith (fun a b => a + b)
          (reconPerSample (forward (Q.rsample eps)) x)
          (klPerSample P Q (Q.rsample eps))),
        listMean (reconPerSample (forward (Q.rsample eps)) x),
        listMean (klPerSample P Q (Q.rsample eps)),
        forward (Q.rsample eps)) ∧
    (basic_vae_module.elbo_loss forward x P Q eps).1 =
      (basic_vae_module.elbo_loss forward x P Q eps).2.1 +
        (basic_vae_module.elbo_loss forward x P Q eps).2.2.1 := by
  refine ⟨rfl, ?_⟩
  exact listMean_zipWith_add _ _ h

/-- Witness for C1 on a concrete one-sample batch. -/
theorem c1_elbo_decomposition_witness :
    (reconPerSample ((fun _ => [[(1 / 2 : ℝ)]])
        (NormalDist.rsample ⟨[[0]], [[1]]⟩ [[0]])) [[(1 / 2 : ℝ)]]).length =
      (klPerSample ⟨[[0]], [[1]]⟩ ⟨[[0]], [[1]]⟩
        (NormalDist.rsample ⟨[[0]], [[1]]⟩ [[0]])).length ∧
    (basic_vae_module.elbo_loss (fun _ => [[(1 / 2 : ℝ)]]) [[(1 / 2 : ℝ)]]
        ⟨[[0]], [[1]]⟩ ⟨[[0]], [[1]]⟩ [[0]]).1 =
      (basic_vae_module.elbo_loss (fun _ => [[(1 / 2 : ℝ)]]) [[(1 / 2 : ℝ)]]
          ⟨[[0]], [[1]]⟩ ⟨[[0]], [[1]]⟩ [[0]]).2.1 +
        (basic_vae_module.elbo_loss (fun _ => [[(1 / 2 : ℝ)]]) [[(1 / 2 : ℝ)]]
            ⟨[[0]], [[1]]⟩ ⟨[[0]], [[1]]⟩ [[0]]).2.2.1 :=
  ⟨by simp [reconPerSample, klPerSample, tmap2, tmap3, zipWith3,
      NormalDist.rsample, NormalDist.log_prob],
    (c1_elbo_decomposition (fun _ => [[(1 / 2 : ℝ)]]) [[(1 / 2 : ℝ)]]
        ⟨[[0]], [[1]]⟩ ⟨[[0]], [[1]]⟩ [[0]]
        (by simp [reconPerSample, klPerSample, tmap2, tmap3, zipWith3,
          NormalDist.rsample, NormalDist.log_prob])).2⟩

/-- C2: the KL scalar returned by `elbo_loss` is the batch mean of the
single-sample Monte-Carlo estimator `log q(z) - log p(z)` summed across
the latent dimensions, where `z` is the one reparameterized sample drawn
from the posterior (first conjunct, an identity over all inputs).  The
analytic closed-form Gaussian KL is not used: for the posterior N(1,1)
against the prior N(0,1) with noise 1, the sample z is 2 (second
conjunct), the per-sample Monte-Carlo value is 3/2 (third conjunct),
whereas the analytic value `-log sigma + (sigma^2 + mu^2)/2 - 1/2` at
mu = 1, sigma = 1 is 1/2, different from 3/2 (fourth conjunct). -/
theorem c2_kl_monte_carlo_estimator :
    (∀ (forward : Tensor2 → Tensor2) (x : Tensor2) (P Q : NormalDist)
        (eps : Tensor2),
      (basic_vae_module.elbo_loss forward x P Q eps).2.2.1 =
        listMean (klPerSample P Q (Q.rsample eps))) ∧
    NormalDist.rsample ⟨[[1]], [[1]]⟩ [[1]] = [[2]] ∧
    klPerSample ⟨[[0]], [[1]]⟩ ⟨[[1]], [[1]]⟩
        (NormalDist.rsample ⟨[[1]], [[1]]⟩ [[1]]) = [3 / 2] ∧
    klPerSample ⟨[[0]], [[1]]⟩ ⟨[[1]], [[1]]⟩
        (NormalDist.rsample ⟨[[1]], [[1]]⟩ [[1]]) ≠
      [-Real.log 1 + ((1 : ℝ) ^ 2 + 1 ^ 2) / 2 - 1 / 2] := by
  have hz : NormalDist.rsample (⟨[[1]], [[1]]⟩ : NormalDist) [[1]] = [[2]] := by
    simp [NormalDist.rsample, tmap2]
    norm_num
  have hkl : klPerSample ⟨[[0]], [[1]]⟩ ⟨[[1]], [[1]]⟩
      (NormalDist.rsample ⟨[[1]], [[1]]⟩ [[1]]) = [3 / 2] := by
    rw [hz]
    simp [klPerSample, NormalDist.log_prob, tmap2, tmap3, zipWith3,
      normalLogProb, Real.log_one]
    ring
  refine ⟨fun _ _ _ _ _ => rfl, hz, hkl, ?_⟩
  rw [hkl]
  simp [Real.log_one]
  norm_num

/-- C6: the per-sample reconstruction loss computed in `elbo_loss` —
elementwise binary cross-entropy of the reconstruction against the
flattened input, summed over the feature dimension — is nonnegative
whenever every reconstruction and input value lies in [0, 1]. -/
theorem c6_recon_per_sample_nonneg (pxz x : Tensor2)
    (hp : ∀ row ∈ pxz, ∀ p ∈ row, 0 ≤ p ∧ p ≤ 1)
    (hx : ∀ row ∈ x, ∀ t ∈ row, 0 ≤ t ∧ t ≤ 1) :
    ∀ r ∈ reconPerSample pxz x, 0 ≤ r := by
  intro r hr
  simp only [reconPerSample, List.mem_map] at hr
  obtain ⟨row, hrow, rfl⟩ := hr
  obtain ⟨prow, hprow, xrow, hxrow, rfl⟩ := mem_zipWith hrow
  refine List.sum_nonneg (fun v hv => ?_)
  obtain ⟨p, hpmem, t, htmem, rfl⟩ := mem_zipWith hv
  obtain ⟨hp0, hp1⟩ := hp prow hprow p hpmem
  obtain ⟨ht0, ht1⟩ := hx xrow hxrow t htmem
  exact bce_nonneg hp0 hp1 ht0 ht1

/-- Witness for C6 on the one-pixel batch with reconstruction 1/2 and
target 1/2. -/
theorem c6_recon_per_sample_nonneg_witness :
    (∀ row ∈ ([[(1 / 2 : ℝ)]] : Tensor2), ∀ p ∈ row, 0 ≤ p ∧ p ≤ 1) ∧
    (0 : ℝ) ≤ List.sum [bce (1 / 2) (1 / 2)] :=
  ⟨by norm_num,
    c6_recon_per_sample_nonneg [[(1 / 2 : ℝ)]] [[(1 / 2 : ℝ)]]
      (by norm_num) (by norm_num) (List.sum [bce (1 / 2) (1 / 2)])
      (by simp [reconPerSample, tmap2])⟩

/-- C3: end-to-end step with batch size 4, latent_dim 2 and 16-pixel
flattened inputs in [0,1], an encoder stub returning mean 0 and log_var 0
and a decoder stub returning 1/2 everywhere: every per-sample
reconstruction loss equals `16 * (-log (1/2))` (first conjunct), the
posterior built from the stub coincides with the prior so every
per-sample KL term is 0 for every sample z (second conjunct), and the
whole `_run_step` returns loss `16 * (-log (1/2))`, reconstruction loss
`16 * (-log (1/2))` and KL 0 (third conjunct). -/
theorem c3_end_to_end_scenario (x eps : Tensor2) (u : Unit)
    (hxlen : x.length = 4)
    (hrows : ∀ row ∈ x, row.length = 16 ∧ ∀ v ∈ row, 0 ≤ v ∧ v ≤ 1)
    (heps : eps.length = 4) :
    reconPerSample (List.replicate 4 (List.replicate 16 (1 / 2 : ℝ))) x =
      List.replicate 4 (16 * (-Real.log (1 / 2))) ∧
    (∀ z : Tensor2, ∀ k ∈ klPerSample
        (basic_vae_module.get_prior (List.replicate 4 (List.replicate 2 (0 : ℝ)))
          (tmap Real.exp (tmap (fun v => v / 2)
            (List.replicate 4 (List.replicate 2 (0 : ℝ))))))
        (basic_vae_module.get_approx_posterior
          (List.replicate 4 (List.replicate 2 (0 : ℝ)))
          (tmap Real.exp (tmap (fun v => v / 2)
            (List.replicate 4 (List.replicate 2 (0 : ℝ)))))) z,
      k = 0) ∧
    basic_vae_module.run_step
        (fun _ => (List.replicate 4 (List.replicate 2 (0 : ℝ)),
          List.replicate 4 (List.replicate 2 (0 : ℝ))))
        (fun _ => List.replicate 4 (List.replicate 16 (1 / 2 : ℝ)))
        (x, u) eps =
      (16 * (-Real.log (1 / 2)), 16 * (-Real.log (1 / 2)), 0,
        List.replicate 4 (List.replicate 16 (1 / 2 : ℝ))) := by
  have hrowlen : ∀ row ∈ x, row.length = 16 := fun row hr => (hrows row hr).1
  have hP : basic_vae_module.get_prior (List.replicate 4 (List.replicate 2 (0 : ℝ)))
      (tmap Real.exp (tmap (fun v => v / 2)
        (List.replicate 4 (List.replicate 2 (0 : ℝ))))) =
      (⟨List.replicate 4 (List.replicate 2 (0 : ℝ)),
        List.replicate 4 (List.replicate 2 (1 : ℝ))⟩ : NormalDist) := by
    simp [basic_vae_module.get_prior, tmap]
  have hQ : basic_vae_module.get_approx_posterior
      (List.replicate 4 (List.replicate 2 (0 : ℝ)))
      (tmap Real.exp (tmap (fun v => v / 2)
        (List.replicate 4 (List.replicate 2 (0 : ℝ))))) =
      (⟨List.replicate 4 (List.replicate 2 (0 : ℝ)),
        List.replicate 4 (List.replicate 2 (1 : ℝ))⟩ : NormalDist) := by
    simp [basic_vae_module.get_approx_posterior, tmap]
  have hkl4 : (klPerSample
      ⟨List.replicate 4 (List.replicate 2 (0 : ℝ)),
        List.replicate 4 (List.replicate 2 (1 : ℝ))⟩
      ⟨List.replicate 4 (List.replicate 2 (0 : ℝ)),
        List.replicate 4 (List.replicate 2 (1 : ℝ))⟩
      (NormalDist.rsample
        ⟨List.replicate 4 (List.replicate 2 (0 : ℝ)),
          List.replicate 4 (List.replicate 2 (1 : ℝ))⟩ eps)).length = 4 := by
    simp [klPerSample, NormalDist.log_prob, NormalDist.rsample, tmap2, tmap3,
      length_zipWith3, heps]
  refine ⟨?_, ?_, ?_⟩
  · rw [reconPerSample_const_half 4 16 x hxlen hrowlen]
    norm_num
  · intro z k hk
    rw [hP, hQ] at hk
    exact klPerSample_self _ z k hk
  · have hrs : basic_vae_module.run_step
        (fun _ => (List.replicate 4 (List.replicate 2 (0 : ℝ)),
          List.replicate 4 (List.replicate 2 (0 : ℝ))))
        (fun _ => List.replicate 4 (List.replicate 16 (1 / 2 : ℝ)))
        (x, u) eps =
        basic_vae_module.elbo_loss
          (fun _ => List.replicate 4 (List.replicate 16 (1 / 2 : ℝ))) x
          (basic_vae_module.get_prior (List.replicate 4 (List.replicate 2 (0 : ℝ)))
            (tmap Real.exp (tmap (fun v => v / 2)
              (List.replicate 4 (List.replicate 2 (0 : ℝ))))))
          (basic_vae_module.get_approx_posterior
            (List.replicate 4 (List.replicate 2 (0 : ℝ)))
            (tmap Real.exp (tmap (fun v => v / 2)
              (List.replicate 4 (List.replicate 2 (0 : ℝ))))))
          eps := rfl
    rw [hrs, hP, hQ,
      elbo_loss_const_half_self_prior x eps _ 4 16 (by omega) hxlen hrowlen hkl4]
    norm_num

/-- Witness for C3 on the all-zero 4 x 16 input batch with all-zero 4 x 2
noise. -/
theorem c3_end_to_end_scenario_witness :
    (List.replicate 4 (List.replicate 16 (0 : ℝ))).length = 4 ∧
    (∀ row ∈ List.replicate 4 (List.replicate 16 (0 : ℝ)),
      row.length = 16 ∧ ∀ v ∈ row, 0 ≤ v ∧ v ≤ 1) ∧
    (List.replicate 4 (List.replicate 2 (0 : ℝ))).length = 4 ∧
    basic_vae_module.run_step
        (fun _ => (List.replicate 4 (List.replicate 2 (0 : ℝ)),
          List.replicate 4 (List.replicate 2 (0 : ℝ))))
        (fun _ => List.replicate 4 (List.replicate 16 (1 / 2 : ℝ)))
        (List.replicate 4 (List.replicate 16 (0 : ℝ)), ())
        (List.replicate 4 (List.replicate 2 (0 : ℝ))) =
      (16 * (-Real.log (1 / 2)), 16 * (-Real.log (1 / 2)), 0,
        List.replicate 4 (List.replicate 16 (1 / 2 : ℝ))) :=
  ⟨by simp,
    by
      intro row hrow
      rw [List.eq_of_mem_replicate hrow]
      constructor
      · simp
      · intro v hv
        rw [List.eq_of_mem_replicate hv]
        norm_num,
    by simp,
    (c3_end_to_end_scenario (List.replicate 4 (List.replicate 16 (0 : ℝ)))
        (List.replicate 4 (List.replicate 2 (0 : ℝ))) ()
        (by simp)
        (by
          intro row hrow
          rw [List.eq_of_mem_replicate hrow]
          constructor
          · simp
          · intro v hv
            rw [List.eq_of_mem_replicate hv]
            norm_num)
        (by simp)).2.2⟩

end
